import Mathlib

/-!
Shallow embedding of the `netgear` Go package (a NETGEAR-router
attached-device poller): the record decoder `parseDevicesString` from
`client.go`, the snapshot differ `getChangedDevices` and the polling loop
`OnDeviceChanged` from `listener.go`, together with models of the Go
standard-library functions they call (`strings.Split`, `strconv.Atoi`,
`net.ParseMAC`, `net.ParseIP`, `net.HardwareAddr.String`).

Strings are embedded as `List Char`; hardware addresses as `List Nat`
(byte values); Go's `panic` outcome is modelled as `Option.none` at the
top of the decoder.
-/

namespace Netgear

/-- Hex-digit value of a character, as in Go's `net.xtoi`: accepts
`0-9`, `a-f`, `A-F`. -/
def hexVal (c : Char) : Option Nat :=
  if '0' ≤ c ∧ c ≤ '9' then some (c.toNat - '0'.toNat)
  else if 'a' ≤ c ∧ c ≤ 'f' then some (c.toNat - 'a'.toNat + 10)
  else if 'A' ≤ c ∧ c ≤ 'F' then some (c.toNat - 'A'.toNat + 10)
  else none

/-- The lower-case hex digit table `"0123456789abcdef"` used by Go's
`net.HardwareAddr.String`, as a function of the index (only indices
below 16 occur). -/
def hexDigitChar (n : Nat) : Char :=
  if n < 10 then Char.ofNat ('0'.toNat + n) else Char.ofNat ('a'.toNat + (n - 10))

/-- Go's `strings.Split(s, sep)` for a one-character separator:
splits around every occurrence of `sep`; the empty string yields `[""]`. -/
def splitGo (sep : Char) : List Char → List (List Char)
  | [] => [[]]
  | c :: rest =>
    if c = sep then [] :: splitGo sep rest
    else
      match splitGo sep rest with
      | [] => [[c]]
      | g :: gs => (c :: g) :: gs

/-- Accumulator loop for a run of decimal digits (the digit loop shared by
Go's `strconv.Atoi` fast path and `strconv.ParseInt`): consumes the whole
list, failing on any non-digit. -/
def decDigitsAux (acc : Nat) : List Char → Option Nat
  | [] => some acc
  | c :: rest =>
    if '0' ≤ c ∧ c ≤ '9' then decDigitsAux (acc * 10 + (c.toNat - '0'.toNat)) rest
    else none

/-- All-decimal-digit value of a nonempty list of characters. -/
def decDigits : List Char → Option Nat
  | [] => none
  | c :: rest => decDigitsAux 0 (c :: rest)

/-- Go's `strconv.Atoi` (= `ParseInt(s, 10, 64)` up to the returned
error): optional leading `+`/`-`, then at least one decimal digit and
nothing else; values outside the signed 64-bit range are an error.
`none` models a non-nil returned error. -/
def goAtoi (s : List Char) : Option Int :=
  match s with
  | [] => none
  | c :: rest =>
    let digits := if c = '-' ∨ c = '+' then rest else s
    match decDigits digits with
    | none => none
    | some n =>
      if c = '-' then
        if n ≤ 2 ^ 63 then some (-(n : Int)) else none
      else
        if n < 2 ^ 63 then some (n : Int) else none

/-- Typed decode errors of the record decoder (`client.go`):
`malformedRecord` is the `"Device string does not contain enough parts"`
error carrying the offending device substring, `invalidAddress` the
`net.ParseMAC` error carrying the MAC field, `invalidNumber` the
`strconv.Atoi` error carrying the numeric field. -/
inductive ParseError where
  | malformedRecord (devStr : List Char)
  | invalidAddress (field : List Char)
  | invalidNumber (field : List Char)
deriving DecidableEq

/-- The signal / link-rate field logic of `parseDevicesString`:
`v, err := strconv.Atoi(field); if err != nil && field != "" return err`,
otherwise use `v` (which Go's `Atoi` leaves at `0` for the empty string). -/
def goAtoiField (s : List Char) : Except ParseError Int :=
  match goAtoi s with
  | some n => Except.ok n
  | none => if s = [] then Except.ok 0 else Except.error (ParseError.invalidNumber s)

/-- Go's `net.xtoi2(s, e)`: the first two characters of `s` as a hex
byte, also requiring the third character (when present) to equal `e`. -/
def xtoi2 (s : List Char) (e : Char) : Option Nat :=
  match s with
  | c0 :: c1 :: rest =>
    match hexVal c0, hexVal c1 with
    | some h0, some h1 =>
      match rest with
      | [] => some (h0 * 16 + h1)
      | c2 :: _ => if c2 = e then some (h0 * 16 + h1) else none
    | _, _ => none
  | _ => none

/-- The group loop of Go's `net.ParseMAC` for the `:`/`-` formats:
reads `k` hex bytes at offsets `0, 3, 6, …`, each followed by the
separator `sep` (checked by `xtoi2`). -/
def macGroups (sep : Char) : Nat → List Char → Option (List Nat)
  | 0, _ => some []
  | k + 1, s =>
    match xtoi2 s sep with
    | none => none
    | some b =>
      match macGroups sep k (s.drop 3) with
      | none => none
      | some rest => some (b :: rest)

/-- The group loop of Go's `net.ParseMAC` for the `.` format: reads `k`
pairs of hex bytes at offsets `0, 5, 10, …`; the first byte of a pair is
read from an exact two-character slice, the second must be followed by
`'.'` when more input remains. -/
def macGroupsDot : Nat → List Char → Option (List Nat)
  | 0, _ => some []
  | k + 1, s =>
    match xtoi2 (s.take 2) '.', xtoi2 (s.drop 2) '.' with
    | some b0, some b1 =>
      match macGroupsDot k (s.drop 5) with
      | none => none
      | some rest => some (b0 :: b1 :: rest)
    | _, _ => none

/-- Go's `net.ParseMAC`: accepts 6-, 8- or 20-byte hardware addresses in
the `xx:xx:…`, `xx-xx-…` or `xxxx.xxxx.…` formats; anything else
(including any string shorter than 14 characters) is an error, modelled
as `none`. -/
def parseMAC (s : List Char) : Option (List Nat) :=
  if s.length < 14 then none
  else if s.getD 2 ' ' = ':' ∨ s.getD 2 ' ' = '-' then
    if (s.length + 1) % 3 ≠ 0 then none
    else
      let n := (s.length + 1) / 3
      if ¬(n = 6 ∨ n = 8 ∨ n = 20) then none
      else macGroups (s.getD 2 ' ') n s
  else if s.getD 4 ' ' = '.' then
    if (s.length + 1) % 5 ≠ 0 then none
    else
      let n := 2 * ((s.length + 1) / 5)
      if ¬(n = 6 ∨ n = 8 ∨ n = 20) then none
      else macGroupsDot (n / 2) s
  else none

/-- One byte in lower-case hex, as `net.HardwareAddr.String` renders it
(`hexDigit[b>>4], hexDigit[b&0xF]`). -/
def byteHex (b : Nat) : List Char :=
  [hexDigitChar (b / 16 % 16), hexDigitChar (b % 16)]

/-- Go's `net.HardwareAddr.String`: colon-separated lower-case hex
bytes; the empty address renders as the empty string. -/
def macString (a : List Nat) : List Char :=
  match a with
  | [] => []
  | b :: rest => byteHex b ++ rest.foldr (fun b acc => ':' :: byteHex b ++ acc) []

/-- The digit loop of `netip.parseIPv6`: consume leading hex digits of
`s`, returning the accumulated value, the number of digits consumed, and
the rest of the list. -/
def takeHexAux (acc n : Nat) : List Char → Nat × Nat × List Char
  | [] => (acc, n, [])
  | c :: rest =>
    match hexVal c with
    | none => (acc, n, c :: rest)
    | some v => takeHexAux (acc * 16 + v) (n + 1) rest

/-- Go's `netip.parseIPv4Fields`: dotted-decimal octets, each 0–255 with
no leading zero, exactly four fields, no empty field; returns the four
byte values. The state is `(value, digit count, completed fields)`. -/
def ipv4FieldsAux : List Char → Nat → Nat → List Nat → Option (List Nat)
  | [], val, digLen, fields =>
    if digLen = 0 then none
    else if fields.length < 3 then none
    else some (fields ++ [val])
  | c :: rest, val, digLen, fields =>
    if '0' ≤ c ∧ c ≤ '9' then
      if digLen = 1 ∧ val = 0 then none
      else
        let val2 := val * 10 + (c.toNat - '0'.toNat)
        if val2 > 255 then none
        else ipv4FieldsAux rest val2 (digLen + 1) fields
    else if c = '.' then
      if digLen = 0 then none
      else if rest = [] then none
      else if fields.length = 3 then none
      else ipv4FieldsAux rest 0 0 (fields ++ [val])
    else none

/-- Go's `netip.parseIPv4` via `parseIPv4Fields` on the whole string. -/
def ipv4Fields (s : List Char) : Option (List Nat) :=
  ipv4FieldsAux s 0 0 []

/-- One pass of the `netip.parseIPv6` main loop, fuelled (the loop runs
at most eight times since every iteration adds at least two of the
sixteen bytes).  State: input `s`, byte count `i`, ellipsis position,
bytes so far.  Returns the final state or `none` on a parse error. -/
def ipv6Loop : Nat → List Char → Nat → Option Nat → List Nat →
    Option (List Nat × Option Nat × List Char × Nat)
  | 0, s, i, ell, bytes => some (bytes, ell, s, i)
  | fuel + 1, s, i, ell, bytes =>
    if i < 16 then
      match takeHexAux 0 0 s with
      | (acc, off, _) =>
        if off = 0 then none
        else if off > 4 then none
        else
          let rest := s.drop off
          if rest.getD 0 ' ' = '.' ∧ rest ≠ [] then
            -- trailing embedded IPv4: must sit in the final four bytes
            if ell = none ∧ i ≠ 12 then none
            else if i + 4 > 16 then none
            else
              match ipv4Fields s with
              | none => none
              | some fs => some (bytes ++ fs, ell, [], i + 4)
          else
            let bytes2 := bytes ++ [acc / 256, acc % 256]
            let i2 := i + 2
            if rest = [] then some (bytes2, ell, [], i2)
            else if rest.getD 0 ' ' ≠ ':' then none
            else if rest.length = 1 then none
            else
              let rest2 := rest.drop 1
              if rest2.getD 0 ' ' = ':' then
                if ell ≠ none then none
                else
                  let rest3 := rest2.drop 1
                  if rest3 = [] then some (bytes2, some i2, [], i2)
                  else ipv6Loop fuel rest3 i2 (some i2) bytes2
              else ipv6Loop fuel rest2 i2 ell bytes2
    else some (bytes, ell, s, i)

/-- Go's `netip.parseIPv6` (zone-free inputs): optional leading `::`,
then the hex-group loop, then ellipsis expansion.  Returns the sixteen
address bytes. -/
def parseIPv6 (s : List Char) : Option (List Nat) :=
  let start : Option (List Char × Option Nat) :=
    if s.getD 0 ' ' = ':' ∧ s.getD 1 ' ' = ':' then some (s.drop 2, some 0)
    else some (s, none)
  match start with
  | none => none
  | some (s1, ell0) =>
    if s1 = [] ∧ ell0 = some 0 then some (List.replicate 16 0)
    else
      match ipv6Loop 16 s1 0 ell0 [] with
      | none => none
      | some (bytes, ell, rest, i) =>
        if rest ≠ [] then none
        else if i < 16 then
          match ell with
          | none => none
          | some e => some (bytes.take e ++ List.replicate (16 - i) 0 ++ bytes.drop e)
        else if ell ≠ none then none
        else some bytes

/-- First of `'.'`, `':'`, `'%'` in the string — the dispatch scan of
`netip.ParseAddr`. -/
def firstSpecial : List Char → Option Char
  | [] => none
  | c :: rest =>
    if c = '.' ∨ c = ':' ∨ c = '%' then some c else firstSpecial rest

/-- Go's `net.ParseIP`, returning the 16-byte `As16` form (IPv4 results
are v4-mapped), or `none` where Go returns `nil`.  A `'%'` anywhere makes
the result `nil`: before any `'.'`/`':'` it is a `ParseAddr` error, in
an IPv4 string it is an invalid character, and after a `':'` it starts a
zone, which `net.parseIP` rejects (an empty zone being itself an error). -/
def parseIP (s : List Char) : Option (List Nat) :=
  match firstSpecial s with
  | some '.' =>
    match ipv4Fields s with
    | none => none
    | some fs => some (List.replicate 10 0 ++ [255, 255] ++ fs)
  | some ':' => if s.contains '%' then none else parseIPv6 s
  | _ => none

/-- `AttachedDevice` from `client.go`: one record of a router snapshot.
`IP` is Go's `net.IP` (`none` for Go's `nil`), `MAC` a
`net.HardwareAddr` as its byte values, `Type'` the Go field `Type`. -/
structure AttachedDevice where
  IP : Option (List Nat)
  Name : List Char
  MAC : List Nat
  Type' : List Char
  LinkRate : Int
  Signal : Int
deriving DecidableEq

/-- The body of the `parseDevicesString` loop after the eight-field
check: parse the MAC (field 3), the signal (field 5), the link rate
(field 6), then build the record with the best-effort IP (field 1),
name (field 2) and type (field 4). -/
def parseParts8 (parts : List (List Char)) : Except ParseError AttachedDevice :=
  match parseMAC (parts.getD 3 []) with
  | none => Except.error (ParseError.invalidAddress (parts.getD 3 []))
  | some mac =>
    match goAtoiField (parts.getD 5 []) with
    | Except.error e => Except.error e
    | Except.ok signal =>
      match goAtoiField (parts.getD 6 []) with
      | Except.error e => Except.error e
      | Except.ok linkRate =>
        Except.ok
          { IP := parseIP (parts.getD 1 [])
            Name := parts.getD 2 []
            MAC := mac
            Type' := parts.getD 4 []
            LinkRate := linkRate
            Signal := signal }

/-- One iteration of the `parseDevicesString` loop: split the device
substring on `';'`, fail with the `MalformedRecord` error when the split
does not yield exactly eight fields, then decode the fields. -/
def parseDevice (devStr : List Char) : Except ParseError AttachedDevice :=
  let parts := splitGo ';' devStr
  if parts.length = 8 then parseParts8 parts
  else Except.error (ParseError.malformedRecord devStr)

/-- The `parseDevicesString` loop over all device substrings: records are
decoded in input order and the first error aborts the whole decode. -/
def parseDevices : List (List Char) → Except ParseError (List AttachedDevice)
  | [] => Except.ok []
  | s :: rest =>
    match parseDevice s with
    | Except.error e => Except.error e
    | Except.ok d =>
      match parseDevices rest with
      | Except.error e => Except.error e
      | Except.ok ds => Except.ok (d :: ds)

/-- `parseDevicesString` from `client.go`: drop the first two characters
(`devices[2:]`, the device count and its `'@'`), split on `'@'`, decode
each substring.  Go's `devices[2:]` panics when the input is shorter than
two characters; the panic outcome is modelled as `none`. -/
def parseDevicesString (devices : List Char) : Option (Except ParseError (List AttachedDevice)) :=
  if devices.length < 2 then none
  else some (parseDevices (splitGo '@' (devices.drop 2)))

/-- `DeviceChange` from `listener.go`: `type DeviceChange int`. -/
abbrev DeviceChange := Int

/-- `DeviceAdded DeviceChange = iota` (0). -/
def DeviceAdded : DeviceChange := 0

/-- `DeviceRemoved DeviceChange = iota` (1). -/
def DeviceRemoved : DeviceChange := 1

/-- `ChangedDevice` from `listener.go`. -/
structure ChangedDevice where
  Device : AttachedDevice
  Change : DeviceChange
deriving DecidableEq

/-- The key under which `getChangedDevices` files a device in its
`diff` map: `dev.MAC.String()`. -/
def devKey (d : AttachedDevice) : List Char :=
  macString d.MAC

/-- Setting a key in the `map[string]bool` (membership model: a key is
present at most once). -/
def insertKey (m : List (List Char)) (k : List Char) : List (List Char) :=
  if k ∈ m then m else k :: m

/-- `delete(diff, key)` on the membership model of the map. -/
def eraseKey (m : List (List Char)) (k : List Char) : List (List Char) :=
  m.filter (fun x => !decide (x = k))

/-- The first loop of `getChangedDevices`: file every old device's MAC
key in the `diff` map. -/
def buildDiff (oldDevices : List AttachedDevice) : List (List Char) :=
  oldDevices.foldl (fun m d => insertKey m (devKey d)) []

/-- The second loop of `getChangedDevices`: scan the new snapshot in
order; a device whose key is absent from `diff` is appended as
`DeviceAdded`, otherwise its key is deleted from `diff`.  Returns the
appended changes and the final `diff` map. -/
def scanNew : List AttachedDevice → List (List Char) → List ChangedDevice × List (List Char)
  | [], diff => ([], diff)
  | d :: rest, diff =>
    if devKey d ∈ diff then scanNew rest (eraseKey diff (devKey d))
    else
      let r := scanNew rest diff
      (⟨d, DeviceAdded⟩ :: r.1, r.2)

/-- The third loop of `getChangedDevices`: every old device whose key is
still in `diff` is appended as `DeviceRemoved`, in old-snapshot order. -/
def scanRemoved (oldDevices : List AttachedDevice) (diff : List (List Char)) : List ChangedDevice :=
  (oldDevices.filter (fun d => decide (devKey d ∈ diff))).map (fun d => ⟨d, DeviceRemoved⟩)

/-- `getChangedDevices` from `listener.go`: seed `diff` with the old
keys, emit `DeviceAdded` changes while scanning the new snapshot, then
`DeviceRemoved` changes while re-scanning the old snapshot. -/
def getChangedDevices (oldDevices newDevices : List AttachedDevice) : List ChangedDevice :=
  (scanNew newDevices (buildDiff oldDevices)).1
    ++ scanRemoved oldDevices (scanNew newDevices (buildDiff oldDevices)).2

/-- The `getDevices` closure of `OnDeviceChanged`: a failed `Login`
short-circuits, otherwise the result of `Devices()` is returned. -/
def getDevices {E : Type} (login : Except E Unit)
    (devicesRes : Except E (List AttachedDevice)) : Except E (List AttachedDevice) :=
  match login with
  | Except.error e => Except.error e
  | Except.ok _ => devicesRes

/-- One iteration of the `watcher` loop of `OnDeviceChanged`, given the
outcomes of this tick's `Login` and `Devices` calls: on an error the
handler is invoked once with `(nil, err)` and the baseline is kept;
otherwise the handler is invoked once per change (added first, then
removed) and the new snapshot becomes the baseline.  The second
component lists the handler invocations `(change, error)` in order. -/
def tick {E : Type} (baseline : List AttachedDevice) (login : Except E Unit)
    (devicesRes : Except E (List AttachedDevice)) :
    List AttachedDevice × List (Option ChangedDevice × Option E) :=
  match getDevices login devicesRes with
  | Except.error e => (baseline, [(none, some e)])
  | Except.ok updated =>
    (updated, (getChangedDevices baseline updated).map (fun c => (some c, none)))

/-- The initial baseline of `OnDeviceChanged`:
`devices := []AttachedDevice{}`. -/
def initialDevices : List AttachedDevice := []

/-- Modelled from the spec (§4.3 diff algorithm, for comparison with
`getChangedDevices`): the `Added` changes are the new-snapshot devices
whose MAC key does not occur in the old snapshot, in new-snapshot
order. -/
def specAddedChanges (oldDevices newDevices : List AttachedDevice) : List ChangedDevice :=
  (newDevices.filter (fun d => !decide (devKey d ∈ oldDevices.map devKey))).map
    (fun d => ⟨d, DeviceAdded⟩)

/-- Modelled from the spec (§4.3 diff algorithm, for comparison with
`getChangedDevices`): the `Removed` changes are the old-snapshot devices
whose MAC key does not occur in the new snapshot, in old-snapshot
order. -/
def specRemovedChanges (oldDevices newDevices : List AttachedDevice) : List ChangedDevice :=
  (oldDevices.filter (fun d => !decide (devKey d ∈ newDevices.map devKey))).map
    (fun d => ⟨d, DeviceRemoved⟩)

/-- The decoder input of the spec's end-to-end example. -/
def exampleInput : List Char :=
  ("2@0;10.0.0.2;phone;aa:aa:aa:aa:aa:aa;wifi;-50;100;x"
    ++ "@0;10.0.0.3;tv;bb:bb:bb:bb:bb:bb;eth;;;x").toList

/-- Device `A` of the spec's differ example (MAC key `aa:aa`). -/
def devA : AttachedDevice :=
  { IP := none, Name := [], MAC := [170, 170], Type' := [], LinkRate := 0, Signal := 0 }

/-- Device `B` of the spec's differ example (MAC key `bb:bb`). -/
def devB : AttachedDevice :=
  { IP := none, Name := [], MAC := [187, 187], Type' := [], LinkRate := 0, Signal := 0 }

/-- Device `C` of the spec's differ example (MAC key `cc:cc`). -/
def devC : AttachedDevice :=
  { IP := none, Name := [], MAC := [204, 204], Type' := [], LinkRate := 0, Signal := 0 }

/-! ### Structure of the differ -/

theorem mem_insertKey {m : List (List Char)} {j k : List Char} :
    k ∈ insertKey m j ↔ k = j ∨ k ∈ m := by
  unfold insertKey
  by_cases h : j ∈ m
  · simp only [if_pos h]
    constructor
    · exact fun hk => Or.inr hk
    · rintro (rfl | hk)
      · exact h
      · exact hk
  · simp only [if_neg h, List.mem_cons]

theorem mem_eraseKey {m : List (List Char)} {j k : List Char} :
    k ∈ eraseKey m j ↔ k ∈ m ∧ k ≠ j := by
  simp [eraseKey, List.mem_filter]

theorem mem_buildDiff_aux (l : List AttachedDevice) (m : List (List Char)) (k : List Char) :
    k ∈ l.foldl (fun m d => insertKey m (devKey d)) m ↔ k ∈ m ∨ k ∈ l.map devKey := by
  induction l generalizing m with
  | nil => simp
  | cons d rest ih =>
    simp only [List.foldl_cons, ih, mem_insertKey, List.map_cons, List.mem_cons]
    tauto

theorem mem_buildDiff {l : List AttachedDevice} {k : List Char} :
    k ∈ buildDiff l ↔ k ∈ l.map devKey := by
  simpa [buildDiff] using mem_buildDiff_aux l [] k

theorem scanNew_snd (newDevices : List AttachedDevice) (diff : List (List Char)) :
    (scanNew newDevices diff).2
      = diff.filter (fun k => !decide (k ∈ newDevices.map devKey)) := by
  induction newDevices generalizing diff with
  | nil => simp [scanNew]
  | cons d rest ih =>
    by_cases h : devKey d ∈ diff
    · rw [scanNew, if_pos h, ih]
      rw [eraseKey, List.filter_filter]
      apply List.filter_congr
      intro k _
      simp only [List.map_cons, List.mem_cons]
      by_cases hk : k = devKey d <;> simp [hk]
    · rw [scanNew, if_neg h]
      simp only [ih]
      apply List.filter_congr
      intro k hk
      have hne : k ≠ devKey d := fun he => h (he ▸ hk)
      simp [hne]

theorem scanNew_fst (newDevices : List AttachedDevice) (diff : List (List Char))
    (h : (newDevices.map devKey).Nodup) :
    (scanNew newDevices diff).1
      = (newDevices.filter (fun d => !decide (devKey d ∈ diff))).map
          (fun d => ⟨d, DeviceAdded⟩) := by
  induction newDevices generalizing diff with
  | nil => simp [scanNew]
  | cons d rest ih =>
    simp only [List.map_cons, List.nodup_cons] at h
    by_cases hd : devKey d ∈ diff
    · rw [scanNew, if_pos hd, ih _ h.2]
      rw [List.filter_cons_of_neg (by simp [hd])]
      congr 1
      apply List.filter_congr
      intro d' hd'
      have hne : devKey d' ≠ devKey d := by
        intro he
        exact h.1 (he ▸ List.mem_map_of_mem devKey hd')
      simp [mem_eraseKey, hne]
    · rw [scanNew, if_neg hd]
      simp only [ih _ h.2]
      rw [List.filter_cons_of_pos (by simp [hd]), List.map_cons]

theorem scanRemoved_eq (oldDevices newDevices : List AttachedDevice) :
    scanRemoved oldDevices
        ((buildDiff oldDevices).filter (fun k => !decide (k ∈ newDevices.map devKey)))
      = specRemovedChanges oldDevices newDevices := by
  unfold scanRemoved specRemovedChanges
  congr 1
  apply List.filter_congr
  intro d hd
  have hkey : devKey d ∈ buildDiff oldDevices :=
    mem_buildDiff.2 (List.mem_map_of_mem devKey hd)
  by_cases hx : devKey d ∈ newDevices.map devKey
  · simp [List.mem_filter, hkey, hx]
    exact List.mem_map.1 hx
  · simp [List.mem_filter, hkey, hx]
    intro x hxm he
    exact hx (he ▸ List.mem_map_of_mem devKey hxm)

/-- Structural characterisation of `getChangedDevices` (assuming the
spec's invariant that MAC keys are unique within the new snapshot): the
added changes, in new-snapshot order, followed by the removed changes,
in old-snapshot order. -/
theorem getChanged_struct (oldDevices newDevices : List AttachedDevice)
    (hnew : (newDevices.map devKey).Nodup) :
    getChangedDevices oldDevices newDevices
      = specAddedChanges oldDevices newDevices ++ specRemovedChanges oldDevices newDevices := by
  unfold getChangedDevices
  rw [scanNew_fst _ _ hnew, scanNew_snd, scanRemoved_eq]
  congr 1
  unfold specAddedChanges
  congr 1
  apply List.filter_congr
  intro d _
  simp [mem_buildDiff]

/-! ### Counting helpers -/

theorem countP_key_nodup (l : List AttachedDevice) (hl : (l.map devKey).Nodup) (k : List Char) :
    l.countP (fun d => decide (devKey d = k)) = if k ∈ l.map devKey then 1 else 0 := by
  induction l with
  | nil => simp
  | cons d rest ih =>
    simp only [List.map_cons, List.nodup_cons] at hl
    rw [List.countP_cons, ih hl.2]
    by_cases hd : devKey d = k
    · have hk : k ∉ rest.map devKey := hd ▸ hl.1
      simp [hd, hk]
    · have hd' : ¬(k = devKey d) := fun h => hd h.symm
      by_cases hk : k ∈ rest.map devKey
      · simp [hd, hd', hk]
      · simp [hd, hd', hk]

theorem countP_key_filter_out (oldDevices newDevices : List AttachedDevice) (k : List Char)
    (hold : (oldDevices.map devKey).Nodup) :
    (oldDevices.filter (fun d => !decide (devKey d ∈ newDevices.map devKey))).countP
        (fun d => decide (devKey d = k))
      = if k ∈ oldDevices.map devKey ∧ k ∉ newDevices.map devKey then 1 else 0 := by
  rw [List.countP_filter]
  by_cases hk : k ∈ newDevices.map devKey
  · rw [if_neg (by simp [hk])]
    rw [List.countP_eq_zero]
    intro d _
    simp only [Bool.and_eq_true, decide_eq_true_eq, Bool.not_eq_true']
    rintro ⟨rfl, hmem⟩
    exact absurd hk (by simpa using hmem)
  · have : oldDevices.countP
          (fun d => decide (devKey d = k) && !decide (devKey d ∈ newDevices.map devKey))
        = oldDevices.countP (fun d => decide (devKey d = k)) := by
      apply List.countP_congr
      intro d _
      simp only [Bool.and_eq_true, decide_eq_true_eq, Bool.not_eq_true']
      constructor
      · exact fun h => h.1
      · intro h
        exact ⟨h, by simp [h, hk]⟩
    rw [this, countP_key_nodup oldDevices hold k]
    by_cases hko : k ∈ oldDevices.map devKey
    · rw [if_pos hko, if_pos ⟨hko, hk⟩]
    · rw [if_neg hko, if_neg (fun h => hko h.1)]

/-! ### Claim theorems: the differ -/

/-- **C1.** For any two snapshots satisfying the spec's invariant that
MAC keys are unique within a snapshot, `getChangedDevices` emits exactly
one `DeviceRemoved` change for a MAC key present only in the old
snapshot, exactly one `DeviceAdded` change for a MAC key present only in
the new snapshot, and no change at all for a key present in both — the
devices carrying a key being otherwise arbitrary, so changed names,
signals or link rates produce no event. -/
theorem differ_symmetric_difference (oldDevices newDevices : List AttachedDevice)
    (hold : (oldDevices.map devKey).Nodup) (hnew : (newDevices.map devKey).Nodup)
    (k : List Char) :
    ((getChangedDevices oldDevices newDevices).countP
        (fun c => decide (devKey c.Device = k) && decide (c.Change = DeviceRemoved))
      = if k ∈ oldDevices.map devKey ∧ k ∉ newDevices.map devKey then 1 else 0)
    ∧ ((getChangedDevices oldDevices newDevices).countP
        (fun c => decide (devKey c.Device = k) && decide (c.Change = DeviceAdded))
      = if k ∈ newDevices.map devKey ∧ k ∉ oldDevices.map devKey then 1 else 0)
    ∧ (k ∈ oldDevices.map devKey → k ∈ newDevices.map devKey →
      (getChangedDevices oldDevices newDevices).countP
        (fun c => decide (devKey c.Device = k)) = 0) := by
  rw [getChanged_struct oldDevices newDevices hnew]
  unfold specAddedChanges specRemovedChanges
  refine ⟨?_, ?_, ?_⟩
  · rw [List.countP_append, List.countP_map, List.countP_map]
    have hA : List.countP
        ((fun c : ChangedDevice => decide (devKey c.Device = k) && decide (c.Change = DeviceRemoved))
          ∘ fun d => ⟨d, DeviceAdded⟩)
        (newDevices.filter (fun d => !decide (devKey d ∈ oldDevices.map devKey))) = 0 := by
      rw [List.countP_eq_zero]
      intro d _
      simp [Function.comp, DeviceAdded, DeviceRemoved]
    rw [hA, Nat.zero_add]
    have hR := countP_key_filter_out oldDevices newDevices k hold
    rw [← hR]
    apply List.countP_congr
    intro d _
    simp [Function.comp]
  · rw [List.countP_append, List.countP_map, List.countP_map]
    have hR : List.countP
        ((fun c : ChangedDevice => decide (devKey c.Device = k) && decide (c.Change = DeviceAdded))
          ∘ fun d => ⟨d, DeviceRemoved⟩)
        (oldDevices.filter (fun d => !decide (devKey d ∈ newDevices.map devKey))) = 0 := by
      rw [List.countP_eq_zero]
      intro d _
      simp [Function.comp, DeviceAdded, DeviceRemoved]
    rw [hR, Nat.add_zero]
    have hA := countP_key_filter_out newDevices oldDevices k hnew
    rw [← hA]
    apply List.countP_congr
    intro d _
    simp [Function.comp]
  · intro hko hkn
    rw [List.countP_append, List.countP_map, List.countP_map]
    have hA : List.countP
        ((fun c : ChangedDevice => decide (devKey c.Device = k)) ∘ fun d => ⟨d, DeviceAdded⟩)
        (newDevices.filter (fun d => !decide (devKey d ∈ oldDevices.map devKey))) = 0 := by
      rw [List.countP_eq_zero]
      intro d hd
      rw [List.mem_filter] at hd
      simp only [Function.comp, decide_eq_true_eq]
      rintro rfl
      exact absurd hko (by simpa using hd.2)
    have hR : List.countP
        ((fun c : ChangedDevice => decide (devKey c.Device = k)) ∘ fun d => ⟨d, DeviceRemoved⟩)
        (oldDevices.filter (fun d => !decide (devKey d ∈ newDevices.map devKey))) = 0 := by
      rw [List.countP_eq_zero]
      intro d hd
      rw [List.mem_filter] at hd
      simp only [Function.comp, decide_eq_true_eq]
      rintro rfl
      exact absurd hkn (by simpa using hd.2)
    rw [hA, hR]

theorem differ_symmetric_difference_witness :
    ((getChangedDevices [devA] []).countP
        (fun c => decide (devKey c.Device = devKey devA) && decide (c.Change = DeviceRemoved))
      = if devKey devA ∈ [devA].map devKey ∧ devKey devA ∉ ([] : List AttachedDevice).map devKey
        then 1 else 0)
    ∧ ((getChangedDevices [devA] []).countP
        (fun c => decide (devKey c.Device = devKey devA) && decide (c.Change = DeviceAdded))
      = if devKey devA ∈ ([] : List AttachedDevice).map devKey ∧ devKey devA ∉ [devA].map devKey
        then 1 else 0)
    ∧ (devKey devA ∈ [devA].map devKey → devKey devA ∈ ([] : List AttachedDevice).map devKey →
      (getChangedDevices [devA] []).countP (fun c => decide (devKey c.Device = devKey devA)) = 0) :=
  differ_symmetric_difference [devA] [] (by decide) (by decide) (devKey devA)

/-- **C2.** For snapshots satisfying the spec's per-snapshot MAC
uniqueness invariant, the change list is the `DeviceAdded` changes in
new-snapshot order followed by the `DeviceRemoved` changes in
old-snapshot order; in particular diffing `{A, B}` against `{B, C}`
emits exactly `Added(C)` then `Removed(A)`. -/
theorem differ_added_then_removed (oldDevices newDevices : List AttachedDevice)
    (hnew : (newDevices.map devKey).Nodup) :
    getChangedDevices oldDevices newDevices
      = specAddedChanges oldDevices newDevices ++ specRemovedChanges oldDevices newDevices
    ∧ getChangedDevices [devA, devB] [devB, devC]
      = [⟨devC, DeviceAdded⟩, ⟨devA, DeviceRemoved⟩] :=
  ⟨getChanged_struct oldDevices newDevices hnew, by decide⟩

theorem differ_added_then_removed_witness :
    getChangedDevices [devA] [devC]
      = specAddedChanges [devA] [devC] ++ specRemovedChanges [devA] [devC]
    ∧ getChangedDevices [devA, devB] [devB, devC]
      = [⟨devC, DeviceAdded⟩, ⟨devA, DeviceRemoved⟩] :=
  differ_added_then_removed [devA] [devC] (by decide)

/-- **C7.** Diffing a snapshot (with the spec's per-snapshot MAC
uniqueness invariant) against itself yields no changes. -/
theorem differ_self_no_changes (s : List AttachedDevice) (h : (s.map devKey).Nodup) :
    getChangedDevices s s = [] := by
  rw [getChanged_struct s s h]
  unfold specAddedChanges specRemovedChanges
  have hfil : s.filter (fun d => !decide (devKey d ∈ s.map devKey)) = [] := by
    rw [List.filter_eq_nil_iff]
    intro d hd
    simp [List.mem_map_of_mem devKey hd]
  rw [hfil]
  simp

theorem differ_self_no_changes_witness : getChangedDevices [devA, devB] [devA, devB] = [] :=
  differ_self_no_changes [devA, devB] (by decide)

/-! ### Claim theorems: the polling engine -/

theorem scanNew_empty_diff :
    ∀ l : List AttachedDevice, scanNew l [] = (l.map (fun d => ⟨d, DeviceAdded⟩), [])
  | [] => by simp [scanNew]
  | d :: rest => by simp [scanNew, scanNew_empty_diff rest]

theorem getChanged_from_empty (snap : List AttachedDevice) :
    getChangedDevices [] snap = snap.map (fun d => ⟨d, DeviceAdded⟩) := by
  unfold getChangedDevices
  have hb : buildDiff [] = [] := rfl
  rw [hb, scanNew_empty_diff snap]
  simp [scanRemoved]

/-- **C8.** The polling engine starts from the empty baseline, so the
first successful tick reports every device of the fetched snapshot as a
`DeviceAdded` change — and, the handler-invocation list being exactly
that, no `DeviceRemoved` change. -/
theorem first_tick_reports_all_added {E : Type} (snap : List AttachedDevice) :
    tick (E := E) initialDevices (Except.ok ()) (Except.ok snap)
      = (snap, snap.map (fun d => (some ⟨d, DeviceAdded⟩, none))) := by
  simp [tick, getDevices, initialDevices, getChanged_from_empty snap]

/-- **C3.** When a tick's login or device fetch fails, the handler is
invoked exactly once, with no change and the error, the baseline is left
unchanged, and a subsequent successful tick therefore diffs against the
last successfully fetched snapshot. -/
theorem tick_failure_keeps_baseline {E : Type} (baseline snap : List AttachedDevice)
    (login : Except E Unit) (devicesRes : Except E (List AttachedDevice)) (e : E)
    (herr : getDevices login devicesRes = Except.error e) :
    tick baseline login devicesRes = (baseline, [(none, some e)])
    ∧ tick (E := E) (tick baseline login devicesRes).1 (Except.ok ()) (Except.ok snap)
      = tick (E := E) baseline (Except.ok ()) (Except.ok snap) := by
  have h1 : tick baseline login devicesRes = (baseline, [(none, some e)]) := by
    unfold tick
    rw [herr]
  refine ⟨h1, ?_⟩
  rw [h1]

theorem tick_failure_keeps_baseline_witness :
    tick [devA] (Except.error ()) (Except.ok []) = ([devA], [(none, some ())])
    ∧ tick (E := Unit) (tick [devA] (Except.error ()) (Except.ok [])).1 (Except.ok ())
        (Except.ok [devB])
      = tick (E := Unit) [devA] (Except.ok ()) (Except.ok [devB]) :=
  tick_failure_keeps_baseline [devA] [devB] (Except.error ()) (Except.ok []) () rfl

/-! ### Claim theorems: decoder totality -/

/-- **C10.** The record decoder is partial exactly on inputs shorter
than two characters: Go's unconditional `devices[2:]` panics there
(modelled as `none`), and every input of length at least two reaches the
ordinary decode path and returns a value. -/
theorem decoder_panics_iff_short (s : List Char) :
    parseDevicesString s = none ↔ s.length < 2 := by
  unfold parseDevicesString
  by_cases h : s.length < 2 <;> simp [h]

/-! ### Claim theorems: the record decoder -/

theorem parseDevices_ok_mem {l : List (List Char)} {ds : List AttachedDevice}
    (h : parseDevices l = Except.ok ds) : ∀ s ∈ l, ∃ d, parseDevice s = Except.ok d := by
  induction l generalizing ds with
  | nil =>
    intro s hs
    cases hs
  | cons x rest ih =>
    intro s hs
    cases hx : parseDevice x with
    | error e =>
      rw [parseDevices, hx] at h
      cases h
    | ok d =>
      rw [parseDevices, hx] at h
      cases hr : parseDevices rest with
      | error e =>
        rw [hr] at h
        cases h
      | ok ds2 =>
        cases hs with
        | head => exact ⟨d, hx⟩
        | tail _ hmem => exact ih hr s hmem

theorem parseDevices_error_before (pre : List (List Char)) (s : List Char)
    (post : List (List Char)) (e : ParseError)
    (hpre : ∀ x ∈ pre, ∃ d, parseDevice x = Except.ok d)
    (hs : parseDevice s = Except.error e) :
    parseDevices (pre ++ s :: post) = Except.error e := by
  induction pre with
  | nil => simp only [List.nil_append, parseDevices, hs]
  | cons x rest ih =>
    obtain ⟨d, hd⟩ := hpre x (List.mem_cons_self x rest)
    have hrest := ih (fun y hy => hpre y (List.mem_cons_of_mem x hy))
    simp only [List.cons_append, parseDevices, hd, List.append_eq, hrest]

/-- The input of the counterexample to C4: its first device substring
has eight fields but an invalid MAC (`"d"`), its second substring
(`"x"`) is malformed. -/
def c4Input : List Char := ("2@a;b;c;d;e;f;g;h@x").toList

/-- Counterexample to **C4** as stated: `c4Input` contains a device
substring that does not split into eight fields, yet the decode fails
with `InvalidAddress` (from the earlier substring's unparsable MAC
field), not with a `MalformedRecord` error. -/
theorem malformed_record_counterexample :
    ("x".toList ∈ splitGo '@' (c4Input.drop 2)
      ∧ (splitGo ';' ("x".toList)).length ≠ 8)
    ∧ parseDevicesString c4Input
      = some (Except.error (ParseError.invalidAddress ("d".toList))) :=
  ⟨by decide, rfl⟩

/-- **C4 (amended).** If any device substring does not split into
exactly eight fields, the whole decode fails and no device list is
returned; when additionally every substring before the offending one
decodes successfully, the error is `MalformedRecord` reporting the
offending substring. -/
theorem malformed_record_aborts (input : List Char) (h2 : 2 ≤ input.length)
    (pre post : List (List Char)) (devStr : List Char)
    (hsplit : splitGo '@' (input.drop 2) = pre ++ devStr :: post)
    (hbad : (splitGo ';' devStr).length ≠ 8) :
    (∀ devs, parseDevicesString input ≠ some (Except.ok devs))
    ∧ ((∀ s ∈ pre, ∃ d, parseDevice s = Except.ok d) →
      parseDevicesString input = some (Except.error (ParseError.malformedRecord devStr))) := by
  have hdev : parseDevice devStr = Except.error (ParseError.malformedRecord devStr) := by
    unfold parseDevice
    rw [if_neg hbad]
  constructor
  · intro devs hok
    unfold parseDevicesString at hok
    rw [if_neg (by omega)] at hok
    have hsome := Option.some.inj hok
    obtain ⟨d, hd⟩ := parseDevices_ok_mem hsome devStr
      (by rw [hsplit]; exact List.mem_append_right pre (List.mem_cons_self devStr post))
    rw [hdev] at hd
    cases hd
  · intro hpre
    unfold parseDevicesString
    rw [if_neg (by omega), hsplit, parseDevices_error_before pre devStr post _ hpre hdev]

theorem malformed_record_aborts_witness :
    (∀ devs, parseDevicesString ("2@a;b;c;d;e;f;g;h@x".toList) ≠ some (Except.ok devs))
    ∧ ((∀ s ∈ ["a;b;c;d;e;f;g;h".toList], ∃ d, parseDevice s = Except.ok d) →
      parseDevicesString ("2@a;b;c;d;e;f;g;h@x".toList)
        = some (Except.error (ParseError.malformedRecord ("x".toList)))) :=
  malformed_record_aborts ("2@a;b;c;d;e;f;g;h@x".toList) (by decide)
    ["a;b;c;d;e;f;g;h".toList] [] ("x".toList) (by decide) (by decide)

/-- **C5.** An unparsable MAC in field 3 of a device substring is fatal
for the whole decode: when every earlier substring decodes successfully,
the decode returns the `InvalidAddress` error and no partial device
list. -/
theorem invalid_mac_aborts (input : List Char) (h2 : 2 ≤ input.length)
    (pre post : List (List Char)) (devStr : List Char)
    (hsplit : splitGo '@' (input.drop 2) = pre ++ devStr :: post)
    (hpre : ∀ s ∈ pre, ∃ d, parseDevice s = Except.ok d)
    (h8 : (splitGo ';' devStr).length = 8)
    (hmac : parseMAC ((splitGo ';' devStr).getD 3 []) = none) :
    parseDevicesString input
      = some (Except.error (ParseError.invalidAddress ((splitGo ';' devStr).getD 3 []))) := by
  have hdev : parseDevice devStr
      = Except.error (ParseError.invalidAddress ((splitGo ';' devStr).getD 3 [])) := by
    unfold parseDevice
    rw [if_pos h8]
    unfold parseParts8
    rw [hmac]
  unfold parseDevicesString
  rw [if_neg (by omega), hsplit, parseDevices_error_before pre devStr post _ hpre hdev]

theorem invalid_mac_aborts_witness :
    parseDevicesString ("1@a;b;c;d;e;f;g;h".toList)
      = some (Except.error (ParseError.invalidAddress ("d".toList))) :=
  invalid_mac_aborts ("1@a;b;c;d;e;f;g;h".toList) (by decide)
    [] [] ("a;b;c;d;e;f;g;h".toList) (by decide) (by simp) (by decide) rfl

theorem goAtoiField_nil : goAtoiField [] = Except.ok 0 := rfl

/-- The first device decoded from `exampleInput`. -/
def exampleDevice1 : AttachedDevice :=
  { IP := some [0, 0, 0, 0, 0, 0, 0, 0, 0, 0, 255, 255, 10, 0, 0, 2]
    Name := "phone".toList
    MAC := [170, 170, 170, 170, 170, 170]
    Type' := "wifi".toList
    LinkRate := 100
    Signal := -50 }

/-- The second device decoded from `exampleInput`: its empty signal and
link-rate fields become `0`. -/
def exampleDevice2 : AttachedDevice :=
  { IP := some [0, 0, 0, 0, 0, 0, 0, 0, 0, 0, 255, 255, 10, 0, 0, 3]
    Name := "tv".toList
    MAC := [187, 187, 187, 187, 187, 187]
    Type' := "eth".toList
    LinkRate := 0
    Signal := 0 }

/-- **C6.** For a device substring that the decoder reaches (all earlier
substrings decode) and whose structure and MAC are valid: an empty
signal field (5) or link-rate field (6) yields the value `0` without
error, while non-empty non-numeric content in either field fails the
whole decode with the `InvalidNumber` error; and the spec's end-to-end
example decodes to exactly two devices, the second with `Signal = 0` and
`LinkRate = 0`. -/
theorem numeric_field_parsing (input : List Char) (h2 : 2 ≤ input.length)
    (pre post : List (List Char)) (devStr : List Char)
    (hsplit : splitGo '@' (input.drop 2) = pre ++ devStr :: post)
    (hpre : ∀ s ∈ pre, ∃ d, parseDevice s = Except.ok d)
    (h8 : (splitGo ';' devStr).length = 8)
    (mac : List Nat) (hmac : parseMAC ((splitGo ';' devStr).getD 3 []) = some mac) :
    goAtoiField [] = Except.ok 0
    ∧ ((splitGo ';' devStr).getD 5 [] ≠ [] → goAtoi ((splitGo ';' devStr).getD 5 []) = none →
      parseDevicesString input
        = some (Except.error (ParseError.invalidNumber ((splitGo ';' devStr).getD 5 []))))
    ∧ (∀ n, goAtoiField ((splitGo ';' devStr).getD 5 []) = Except.ok n →
      (splitGo ';' devStr).getD 6 [] ≠ [] → goAtoi ((splitGo ';' devStr).getD 6 []) = none →
      parseDevicesString input
        = some (Except.error (ParseError.invalidNumber ((splitGo ';' devStr).getD 6 []))))
    ∧ ((splitGo ';' devStr).getD 5 [] = [] →
      ∀ d, parseDevice devStr = Except.ok d → d.Signal = 0)
    ∧ ((splitGo ';' devStr).getD 6 [] = [] →
      ∀ d, parseDevice devStr = Except.ok d → d.LinkRate = 0)
    ∧ parseDevicesString exampleInput = some (Except.ok [exampleDevice1, exampleDevice2])
    ∧ exampleDevice2.Signal = 0 ∧ exampleDevice2.LinkRate = 0 := by
  refine ⟨rfl, ?_, ?_, ?_, ?_, rfl, rfl, rfl⟩
  · intro hne hatoi
    have h5 : goAtoiField ((splitGo ';' devStr).getD 5 [])
        = Except.error (ParseError.invalidNumber ((splitGo ';' devStr).getD 5 [])) := by
      unfold goAtoiField
      rw [hatoi, if_neg hne]
    have hdev : parseDevice devStr
        = Except.error (ParseError.invalidNumber ((splitGo ';' devStr).getD 5 [])) := by
      unfold parseDevice
      rw [if_pos h8]
      unfold parseParts8
      rw [hmac, h5]
    unfold parseDevicesString
    rw [if_neg (by omega), hsplit, parseDevices_error_before pre devStr post _ hpre hdev]
  · intro n hsig hne hatoi
    have h6 : goAtoiField ((splitGo ';' devStr).getD 6 [])
        = Except.error (ParseError.invalidNumber ((splitGo ';' devStr).getD 6 [])) := by
      unfold goAtoiField
      rw [hatoi, if_neg hne]
    have hdev : parseDevice devStr
        = Except.error (ParseError.invalidNumber ((splitGo ';' devStr).getD 6 [])) := by
      unfold parseDevice
      rw [if_pos h8]
      unfold parseParts8
      rw [hmac, hsig, h6]
    unfold parseDevicesString
    rw [if_neg (by omega), hsplit, parseDevices_error_before pre devStr post _ hpre hdev]
  · intro h5e d hd
    unfold parseDevice at hd
    rw [if_pos h8] at hd
    unfold parseParts8 at hd
    rw [hmac, h5e, goAtoiField_nil] at hd
    cases h6 : goAtoiField ((splitGo ';' devStr).getD 6 []) with
    | error e =>
      rw [h6] at hd
      cases hd
    | ok lr =>
      rw [h6] at hd
      injection hd with hdd
      rw [← hdd]
  · intro h6e d hd
    unfold parseDevice at hd
    rw [if_pos h8] at hd
    unfold parseParts8 at hd
    rw [hmac, h6e, goAtoiField_nil] at hd
    cases h5 : goAtoiField ((splitGo ';' devStr).getD 5 []) with
    | error e =>
      rw [h5] at hd
      cases hd
    | ok sg =>
      rw [h5] at hd
      injection hd with hdd
      rw [← hdd]

theorem numeric_field_parsing_witness :
    goAtoiField [] = Except.ok 0
    ∧ (([] : List Char) ≠ [] → goAtoi ([] : List Char) = none →
      parseDevicesString ("1@0;;n;aa:aa:aa:aa:aa:aa;t;;;x".toList)
        = some (Except.error (ParseError.invalidNumber [])))
    ∧ (∀ n, goAtoiField ([] : List Char) = Except.ok n →
      ([] : List Char) ≠ [] → goAtoi ([] : List Char) = none →
      parseDevicesString ("1@0;;n;aa:aa:aa:aa:aa:aa;t;;;x".toList)
        = some (Except.error (ParseError.invalidNumber [])))
    ∧ (([] : List Char) = [] →
      ∀ d, parseDevice ("0;;n;aa:aa:aa:aa:aa:aa;t;;;x".toList) = Except.ok d → d.Signal = 0)
    ∧ (([] : List Char) = [] →
      ∀ d, parseDevice ("0;;n;aa:aa:aa:aa:aa:aa;t;;;x".toList) = Except.ok d → d.LinkRate = 0)
    ∧ parseDevicesString exampleInput = some (Except.ok [exampleDevice1, exampleDevice2])
    ∧ exampleDevice2.Signal = 0 ∧ exampleDevice2.LinkRate = 0 :=
  numeric_field_parsing ("1@0;;n;aa:aa:aa:aa:aa:aa;t;;;x".toList) (by decide)
    [] [] ("0;;n;aa:aa:aa:aa:aa:aa;t;;;x".toList) rfl (by simp) rfl
    [170, 170, 170, 170, 170, 170] rfl

/-- `true` exactly on `Except.ok` — the success observation used to state
that a decode outcome does not depend on the IP field. -/
def exOk {ε α : Type} : Except ε α → Bool
  | Except.ok _ => true
  | Except.error _ => false

theorem parseParts8_explicit (p0 p1 p2 p3 p4 p5 p6 p7 : List Char) :
    parseParts8 [p0, p1, p2, p3, p4, p5, p6, p7]
      = match parseMAC p3 with
        | none => Except.error (ParseError.invalidAddress p3)
        | some mac =>
          match goAtoiField p5 with
          | Except.error e => Except.error e
          | Except.ok signal =>
            match goAtoiField p6 with
            | Except.error e => Except.error e
            | Except.ok linkRate =>
              Except.ok { IP := parseIP p1, Name := p2, MAC := mac, Type' := p4,
                          LinkRate := linkRate, Signal := signal } := rfl

/-- **C9.** Field 1 (IP) is parsed best-effort: whether an eight-field
record decodes does not depend on the content of field 1 at all, the
decoded record's `IP` is exactly `parseIP` of that field (so `none` —
Go's `nil` — whenever it is unparsable), and the empty field yields
`none`. -/
theorem ip_field_best_effort (parts : List (List Char)) (h8 : parts.length = 8)
    (s1 s2 : List Char) :
    exOk (parseParts8 (parts.set 1 s1)) = exOk (parseParts8 (parts.set 1 s2))
    ∧ (∀ d, parseParts8 (parts.set 1 s1) = Except.ok d → d.IP = parseIP s1)
    ∧ parseIP [] = none := by
  rcases parts with _ | ⟨p0, parts⟩
  · simp at h8
  rcases parts with _ | ⟨p1, parts⟩
  · simp at h8
  rcases parts with _ | ⟨p2, parts⟩
  · simp at h8
  rcases parts with _ | ⟨p3, parts⟩
  · simp at h8
  rcases parts with _ | ⟨p4, parts⟩
  · simp at h8
  rcases parts with _ | ⟨p5, parts⟩
  · simp at h8
  rcases parts with _ | ⟨p6, parts⟩
  · simp at h8
  rcases parts with _ | ⟨p7, parts⟩
  · simp at h8
  rcases parts with _ | ⟨p8, parts⟩
  case cons =>
    simp at h8
  have hset1 : [p0, p1, p2, p3, p4, p5, p6, p7].set 1 s1
      = [p0, s1, p2, p3, p4, p5, p6, p7] := rfl
  have hset2 : [p0, p1, p2, p3, p4, p5, p6, p7].set 1 s2
      = [p0, s2, p2, p3, p4, p5, p6, p7] := rfl
  rw [hset1, hset2, parseParts8_explicit, parseParts8_explicit]
  refine ⟨?_, ?_, rfl⟩
  · cases hm : parseMAC p3 with
    | none => rfl
    | some mac =>
      cases h5 : goAtoiField p5 with
      | error e => rfl
      | ok sg =>
        cases h6 : goAtoiField p6 with
        | error e => rfl
        | ok lr => rfl
  · intro d hd
    cases hm : parseMAC p3 with
    | none =>
      rw [hm] at hd
      cases hd
    | some mac =>
      rw [hm] at hd
      cases h5 : goAtoiField p5 with
      | error e =>
        rw [h5] at hd
        cases hd
      | ok sg =>
        rw [h5] at hd
        cases h6 : goAtoiField p6 with
        | error e =>
          rw [h6] at hd
          cases hd
        | ok lr =>
          rw [h6] at hd
          injection hd with hdd
          rw [← hdd]

theorem ip_field_best_effort_witness :
    exOk (parseParts8
        (["0".toList, "9".toList, "n".toList, "aa:aa:aa:aa:aa:aa".toList,
          "t".toList, "1".toList, "2".toList, "x".toList].set 1 ("10.0.0.2".toList)))
      = exOk (parseParts8
        (["0".toList, "9".toList, "n".toList, "aa:aa:aa:aa:aa:aa".toList,
          "t".toList, "1".toList, "2".toList, "x".toList].set 1 ("not-an-ip".toList)))
    ∧ (∀ d, parseParts8
        (["0".toList, "9".toList, "n".toList, "aa:aa:aa:aa:aa:aa".toList,
          "t".toList, "1".toList, "2".toList, "x".toList].set 1 ("10.0.0.2".toList))
        = Except.ok d → d.IP = parseIP ("10.0.0.2".toList))
    ∧ parseIP [] = none :=
  ip_field_best_effort
    ["0".toList, "9".toList, "n".toList, "aa:aa:aa:aa:aa:aa".toList,
      "t".toList, "1".toList, "2".toList, "x".toList] (by decide)
    ("10.0.0.2".toList) ("not-an-ip".toList)

end Netgear
